import Mathlib

/-!
Verification development for the mobkoi Prebid.js plugins, centred on the
event-correlation and debug-reporting engine of
`modules/mobkoiAnalyticsAdapter.js` (the later of the two source versions,
whose `LocalContext` owns a common event log, a common payload accumulator
and the `_commonBidContextEventsFlushed` guard).

JavaScript values are embedded shallowly as the inductive type `JsVal`
(numbers are `Int`: every value the adapter inspects is an id string, an
epoch-milliseconds integer or a flag, so fractional and NaN corner cases do
not arise).  JavaScript exceptions are embedded as `Except JsError`.
Property access on a non-object is modelled as `undefined`; the TypeError a
real engine would raise on `null.x` is outside the states exercised here.
-/

namespace Mobkoi

/-- Shallow embedding of the JavaScript values the adapter handles:
numbers, strings, booleans, `null`, `undefined`, arrays and plain objects
(an object is an insertion-ordered association list of fields, as JS
preserves insertion order for non-numeric string keys). -/
inductive JsVal where
  | vNum (n : Int)
  | vStr (s : String)
  | vBool (b : Bool)
  | vNull
  | vUndefined
  | vArr (items : List JsVal)
  | vObj (fields : List (String × JsVal))
deriving Repr

mutual

/-- Strict equality `===` restricted to the structural cases the adapter
compares (id strings and numbers); two objects or arrays compare by
structure here, which coincides with identity for the lookups performed
(ids are strings). -/
def jsEq : JsVal → JsVal → Bool
  | .vNum a, .vNum b => a = b
  | .vStr a, .vStr b => a = b
  | .vBool a, .vBool b => a = b
  | .vNull, .vNull => true
  | .vUndefined, .vUndefined => true
  | .vArr a, .vArr b => jsEqList a b
  | .vObj a, .vObj b => jsEqFields a b
  | _, _ => false

/-- Structural equality on array items. -/
def jsEqList : List JsVal → List JsVal → Bool
  | [], [] => true
  | a :: as_, b :: bs => jsEq a b && jsEqList as_ bs
  | _, _ => false

/-- Structural equality on object fields. -/
def jsEqFields : List (String × JsVal) → List (String × JsVal) → Bool
  | [], [] => true
  | (ka, va) :: as_, (kb, vb) :: bs => ka = kb && jsEq va vb && jsEqFields as_ bs
  | _, _ => false

end

/-- JavaScript truthiness: `0`, `""`, `false`, `null`, `undefined` are falsy;
every object and array is truthy. -/
def truthy : JsVal → Bool
  | .vNum n => n ≠ 0
  | .vStr s => s ≠ ""
  | .vBool b => b
  | .vNull => false
  | .vUndefined => false
  | .vArr _ => true
  | .vObj _ => true

/-- Field lookup in a string-keyed association list (first occurrence wins,
as a JS object cannot hold duplicate keys).  Used both for object fields
and for the `bidContexts` map. -/
def lookupField {α : Type} : List (String × α) → String → Option α
  | [], _ => none
  | (k, v) :: rest, key => if k = key then some v else lookupField rest key

/-- `obj.key` / `obj[key]`: `undefined` when the field is absent or the value
is not an object. -/
def jsGet (v : JsVal) (key : String) : JsVal :=
  match v with
  | .vObj fields => (lookupField fields key).getD .vUndefined
  | _ => .vUndefined

/-- `Object.prototype.hasOwnProperty`. -/
def hasOwn (v : JsVal) (key : String) : Bool :=
  match v with
  | .vObj fields => fields.any (fun p => p.1 = key)
  | _ => false

/-- The items of an array value (empty for non-arrays). -/
def asArr : JsVal → List JsVal
  | .vArr items => items
  | _ => []

/-- `typeof v === "number"`. -/
def JsVal.isNum : JsVal → Bool
  | .vNum _ => true
  | _ => false

/-- The numeric content of a number value. -/
def JsVal.asNum : JsVal → Int
  | .vNum n => n
  | _ => 0

/-- Overwrite the field `k` if present, else append it — the effect of
`acc[k] = v` / `Object.assign(target, {k: v})` on our ordered model. -/
def setField (fs : List (String × JsVal)) (k : String) (v : JsVal) : List (String × JsVal) :=
  if fs.any (fun p => p.1 = k) then
    fs.map (fun p => if p.1 = k then (k, v) else p)
  else
    fs ++ [(k, v)]

/-- `COMMON_FIELDS_TO_OMIT = ['ad', 'adm']` — fields with large data omitted
from redacted debug dumps. -/
def COMMON_FIELDS_TO_OMIT : List String := ["ad", "adm"]

/-- The `Object.keys` view of a JS array: its elements keyed by their
decimal index strings, in order — what the reduce of `omitRecursive` walks
when handed an array (`typeof` of an array is `"object"`). -/
def indexEntries (i : Nat) : List JsVal → List (String × JsVal)
  | [] => []
  | v :: rest => (toString i, v) :: indexEntries (i + 1) rest

mutual

/-- `omitRecursive(obj, keysToOmit, placeholder = 'OMITTED')` from
`mobkoiAnalyticsAdapter.js`: reduce over `Object.keys(obj)`; a key in
`keysToOmit` maps to the placeholder; a non-null object value — arrays
included, since `typeof` yields `"object"` for them too — is processed
recursively; any other value is copied.  The reduce builds a fresh plain
object as accumulator, so an array value is rebuilt as an index-keyed
object with its elements processed, and the input is untouched (automatic
here since the model is pure).  A primitive input has no own string keys
to reduce over, giving the empty object. -/
def omitRecursive (obj : JsVal) (keysToOmit : List String) (placeholder : JsVal) : JsVal :=
  match obj with
  | .vObj fields => .vObj (omitFields fields keysToOmit placeholder)
  | .vArr items => .vObj (omitItems 0 items keysToOmit placeholder)
  | _ => .vObj []

/-- The body of `omitRecursive`'s reduce over an object's fields, one field
at a time (`acc[currentKey] = ...`: the key is kept, the stored value
depends on the omit check and the runtime type). -/
def omitFields (fields : List (String × JsVal)) (keysToOmit : List String)
    (placeholder : JsVal) : List (String × JsVal) :=
  match fields with
  | [] => []
  | (k, v) :: rest =>
      (k, if k ∈ keysToOmit then placeholder
          else match v with
          | .vObj sub => omitRecursive (.vObj sub) keysToOmit placeholder
          | .vArr sub => omitRecursive (.vArr sub) keysToOmit placeholder
          | other => other)
      :: omitFields rest keysToOmit placeholder

/-- The body of `omitRecursive`'s reduce over an array's index keys: the
same per-value step, with the decimal index string as the current key. -/
def omitItems (i : Nat) (items : List JsVal) (keysToOmit : List String)
    (placeholder : JsVal) : List (String × JsVal) :=
  match items with
  | [] => []
  | v :: rest =>
      (toString i, if toString i ∈ keysToOmit then placeholder
          else match v with
          | .vObj sub => omitRecursive (.vObj sub) keysToOmit placeholder
          | .vArr sub => omitRecursive (.vArr sub) keysToOmit placeholder
          | other => other)
      :: omitItems (i + 1) rest keysToOmit placeholder

end

/-- The value `omitRecursive` stores under key `k` whose original value was
`v`: the placeholder when the key is omitted, the recursively processed
rebuild when the value is an object or an array, the value itself
otherwise. -/
def omitResultValue (keysToOmit : List String) (ph : JsVal) (k : String) (v : JsVal) : JsVal :=
  if k ∈ keysToOmit then ph
  else match v with
       | JsVal.vObj fs => JsVal.vObj (omitFields fs keysToOmit ph)
       | JsVal.vArr items => JsVal.vObj (omitItems 0 items keysToOmit ph)
       | other => other

/-- The default placeholder of `omitRecursive`. -/
def OMITTED : JsVal := .vStr "OMITTED"

/-- A redacted dump: `omitRecursive(obj, COMMON_FIELDS_TO_OMIT)` as used in
every thrown error message of the adapter. -/
def redact (obj : JsVal) : JsVal := omitRecursive obj COMMON_FIELDS_TO_OMIT OMITTED

/-- The `throw new Error(...)` sites of the adapter, as structured values.
Each constructor records the source message; constructors carrying a `JsVal`
correspond to messages that embed
`JSON.stringify(omitRecursive(x, COMMON_FIELDS_TO_OMIT), null, 2)` — the
redacted dump is kept as a value instead of serialised text. -/
inductive JsError where
  /-- `determineObjType`: given value is not an object or is null. -/
  | expectObject (redacted : JsVal)
  /-- `determineObjType`: no kind matched — "Unable to determine track args type". -/
  | unclassifiableShape (redacted : JsVal)
  /-- `getOrtbId`: "Not a valid bid object" — no identifier alias present. -/
  | identifierMissing (redacted : JsVal)
  /-- `retrieveBidContext` wrapper: "Failed to retrieve ORTB ID from bid object ... Sub Error: ...". -/
  | ortbIdRetrievalFailed (sub : JsError)
  /-- `retrieveBidContext` inner check: "ORTB ID is not available in the given bid object". -/
  | ortbIdFalsy (redacted : JsVal)
  /-- `BidContext` constructor: "prebidOrOrtbBidResponse field is required". -/
  | bidResponseRequired
  /-- `BidContext` constructor: "Unable to create a new Bid Context as the
  given object is not a bid response object" — the InvalidBidContextSeed case. -/
  | invalidBidContextSeed (redacted : JsVal)
  /-- `BidContext.prebidBidRequest` getter: "Prebid bid response is not available". -/
  | prebidResponseUnavailable
  /-- `BidContext.impid` getter: no source object available. -/
  | impidUnavailable
  /-- `BidContext.ortbId` getter: no source object available. -/
  | ortbIdUnavailable
  /-- `DebugEvent` constructor: "eventType is required". -/
  | eventTypeRequired
  /-- `DebugEvent` constructor: "Event level must be one of info, warn, error". -/
  | badLevel (given : String)
  /-- `DebugEvent` constructor: "Timestamp must be a number". -/
  | badTimestamp
deriving Repr

/-- The human-readable message of each error, used where the source reads
`error.message`. -/
def JsError.message : JsError → String
  | .expectObject _ => "determineObjType: Expect an object. Given object is not an object or null."
  | .unclassifiableShape _ => "Unable to determine track args type."
  | .identifierMissing _ => "Not a valid bid object."
  | .ortbIdRetrievalFailed sub =>
      "Failed to retrieve ORTB ID from bid object. Sub Error: " ++ sub.message
  | .ortbIdFalsy _ => "ORTB ID is not available in the given bid object."
  | .bidResponseRequired => "prebidOrOrtbBidResponse field is required"
  | .invalidBidContextSeed _ =>
      "Unable to create a new Bid Context as the given object is not a bid response object."
  | .prebidResponseUnavailable => "Prebid bid response is not available. Accessing before assigning."
  | .impidUnavailable =>
      "ORTB bid response and Prebid bid response are not available for extracting Impression ID"
  | .ortbIdUnavailable =>
      "ORTB bid response and Prebid bid response are not available for extracting ORTB ID"
  | .eventTypeRequired => "eventType is required"
  | .badLevel given => "Event level must be one of info, warn, error. Given: " ++ given
  | .badTimestamp => "Timestamp must be a number"

/-- `OBJECT_TYPES`: the payload-kind tags, named as in the source. -/
def OBJECT_TYPES_AUCTION : String := "prebid_auction"

/-- `OBJECT_TYPES.BIDDER_REQUEST`. -/
def OBJECT_TYPES_BIDDER_REQUEST : String := "bidder_request"

/-- `OBJECT_TYPES.ORTB_BID` — the raw-wire-bid kind. -/
def OBJECT_TYPES_ORTB_BID : String := "ortb_bid"

/-- `OBJECT_TYPES.PREBID_RESPONSE_INTERPRETED` — the interpreted-response kind. -/
def OBJECT_TYPES_PREBID_RESPONSE_INTERPRETED : String := "prebid_bid_interpreted"

/-- `OBJECT_TYPES.PREBID_RESPONSE_NOT_INTERPRETED`. -/
def OBJECT_TYPES_PREBID_RESPONSE_NOT_INTERPRETED : String := "prebid_bid_not_interpreted"

/-- `OBJECT_TYPES.PREBID_BID_REQUEST`. -/
def OBJECT_TYPES_PREBID_BID_REQUEST : String := "prebid_bid_request"

/-- `OBJECT_TYPES.AD_DOC_AND_PREBID_BID`. -/
def OBJECT_TYPES_AD_DOC_AND_PREBID_BID : String := "ad_doc_and_prebid_bid"

/-- `OBJECT_TYPES.AD_DOC_AND_PREBID_BID_WITH_ERROR`. -/
def OBJECT_TYPES_AD_DOC_AND_PREBID_BID_WITH_ERROR : String := "ad_doc_and_prebid_bid_with_error"

/-- `OBJECT_TYPES.BIDDER_ERROR_ARGS`. -/
def OBJECT_TYPES_BIDDER_ERROR_ARGS : String := "bidder_error_args"

/-- `OBJECT_TYPES_UNIQUE_FIELDS`, paired with the kinds in the declaration
order that `Object.values(OBJECT_TYPES)` iterates (declaration order of
`OBJECT_TYPES`).  The ordering is semantically load-bearing: the first kind
whose whole field set is present wins. -/
def OBJECT_TYPES_UNIQUE_FIELDS : List (String × List String) :=
  [ (OBJECT_TYPES_AUCTION, ["auctionStatus"]),
    (OBJECT_TYPES_BIDDER_REQUEST, ["bidderRequestId"]),
    (OBJECT_TYPES_ORTB_BID, ["adm", "impid"]),
    (OBJECT_TYPES_PREBID_RESPONSE_INTERPRETED, ["requestId", "ortbBidResponse"]),
    (OBJECT_TYPES_PREBID_RESPONSE_NOT_INTERPRETED, ["requestId"]),
    (OBJECT_TYPES_PREBID_BID_REQUEST, ["bidId"]),
    (OBJECT_TYPES_AD_DOC_AND_PREBID_BID, ["doc", "bid"]),
    (OBJECT_TYPES_AD_DOC_AND_PREBID_BID_WITH_ERROR, ["bid", "reason", "message"]),
    (OBJECT_TYPES_BIDDER_ERROR_ARGS, ["error", "bidderRequest"]) ]

/-- `determineObjType(eventArgs)`: throws unless the argument is a non-null
object; returns the first kind of `OBJECT_TYPES` (declaration order) whose
entire unique-field set is present as own-properties; throws
`unclassifiableShape` when no kind matches. -/
def determineObjType (eventArgs : JsVal) : Except JsError String :=
  match eventArgs with
  | .vObj _ =>
      match OBJECT_TYPES_UNIQUE_FIELDS.find?
          (fun p => p.2.all (fun field => hasOwn eventArgs field)) with
      | some p => .ok p.1
      | none => .error (.unclassifiableShape (redact eventArgs))
  | _ => .error (.expectObject (redact eventArgs))

/-- `getOrtbId(bid)` (second source version): `bid.id` when truthy (the
`debugTurnedOn()` block only emits a console warning and is omitted as it
has no semantic effect), else `bid.ortbId` when truthy, else
`bid.ortbBidResponse.id` when `bid.ortbBidResponse` and that id are truthy,
else throws with a redacted dump. -/
def getOrtbId (bid : JsVal) : Except JsError JsVal :=
  if truthy (jsGet bid "id") then .ok (jsGet bid "id")
  else if truthy (jsGet bid "ortbId") then .ok (jsGet bid "ortbId")
  else if truthy (jsGet bid "ortbBidResponse") && truthy (jsGet (jsGet bid "ortbBidResponse") "id") then
    .ok (jsGet (jsGet bid "ortbBidResponse") "id")
  else .error (.identifierMissing (redact bid))

/-- `safeGetOrtbId(obj)`: `getOrtbId` with any thrown error converted to null. -/
def safeGetOrtbId (obj : JsVal) : JsVal :=
  match getOrtbId obj with
  | .ok v => v
  | .error _ => .vNull

/-- `getImpId(bid)`: `(bid && (bid.impid || bid.requestId || bid.bidId)) || null`. -/
def getImpId (bid : JsVal) : JsVal :=
  if truthy bid then
    let v :=
      if truthy (jsGet bid "impid") then jsGet bid "impid"
      else if truthy (jsGet bid "requestId") then jsGet bid "requestId"
      else jsGet bid "bidId"
    if truthy v then v else .vNull
  else .vNull

mutual

/-- Modelled from the spec: `mergeDeep` is imported from the host
framework's `src/utils.js`, which is not under the sources given here.  The
spec states that later merges for the same kind deep-merge rather than
overwrite ("To avoid overriding the payload object, we merge the new values
to the existing payload object").  Model: when target and source are both
objects, every source field is folded in; a field whose values are objects
on both sides merges recursively, otherwise the source value wins; target
fields absent from the source are kept.  A non-object target is returned
unchanged (the host function only merges plain objects). -/
def mergeDeep (target source : JsVal) : JsVal :=
  match target, source with
  | .vObj tfs, .vObj sfs => .vObj (mergeInto tfs sfs)
  | t, _ => t

/-- Fold the source fields into the target field list, left to right. -/
def mergeInto (tfs : List (String × JsVal)) (sfs : List (String × JsVal)) :
    List (String × JsVal) :=
  match sfs with
  | [] => tfs
  | (k, sv) :: rest =>
      let merged :=
        match lookupField tfs k, sv with
        | some (.vObj tsub), .vObj ssub => mergeDeep (.vObj tsub) (.vObj ssub)
        | _, _ => sv
      mergeInto (setField tfs k merged) rest

end

/-- Modelled from the spec: `pick` is imported from the host framework's
`src/utils.js`, which is not under the sources given here.  Per its use in
the adapter ("The Prebid auction object but only contains the key fields
that we interested in") it projects the listed own fields of an object,
skipping fields that are absent (`undefined`). -/
def pick (obj : JsVal) (keys : List String) : JsVal :=
  .vObj (keys.filterMap (fun k =>
    match jsGet obj k with
    | .vUndefined => none
    | v => some (k, v)))

/-- `DEBUG_EVENT_LEVELS`: the three recognised severity levels.  In the
source it is an object whose own keys are `info`, `warn`, `error`;
`DEBUG_EVENT_LEVELS[level]` is truthy exactly when `level` is one of them. -/
def DEBUG_EVENT_LEVELS : List String := ["info", "warn", "error"]

/-- A constructed `DebugEvent` (second source version): `eventType`,
`level`, resolved numeric `timestamp`, optional `note` (the field is only
set when a truthy note is given). -/
structure DebugEvent where
  eventType : String
  level : String
  timestamp : Int
  note : Option String
deriving Repr, DecidableEq

/-- The `DebugEvent` constructor (second source version).  Throws when
`eventType` is falsy, when `level` indexes no entry of
`DEBUG_EVENT_LEVELS`, or when `timestamp` is truthy yet not a number.
Otherwise stores `timestamp || Date.now()`; the ambient clock is passed
explicitly as `now`.  The `debugTurnedOn()` block only logs a console
warning and is omitted as it has no semantic effect. -/
def DebugEvent.make (eventType : String) (level : String) (timestamp : JsVal)
    (note : Option String) (now : Int) : Except JsError DebugEvent :=
  if eventType = "" then .error .eventTypeRequired
  else if ¬ DEBUG_EVENT_LEVELS.contains level then .error (.badLevel level)
  else if truthy timestamp ∧ ¬ timestamp.isNum then .error .badTimestamp
  else .ok { eventType := eventType, level := level,
             timestamp := if truthy timestamp then timestamp.asNum else now,
             note := note }

/-- A `BidContext` (second source version): the per-bid aggregation unit.
The source also stores a back reference `localContext`; here the owning
`LocalContext` is passed explicitly to the operations that read it. -/
structure BidContext where
  /-- `prebidBidResponse` — null unless seeded from an interpreted response. -/
  prebidBidResponse : JsVal
  /-- `ortbBidResponse` — the raw wire bid (null when absent). -/
  ortbBidResponse : JsVal
  /-- `bidWin` — set true only for the winning mobkoi bid. -/
  bidWin : Bool
  /-- `lurlTriggered` — set true when the loss beacon fires. -/
  lurlTriggered : Bool
  /-- `events` — the append-only list of debug events. -/
  events : List DebugEvent
  /-- `_payload` — the accumulated merged payload fragments. -/
  payload : JsVal
deriving Repr

/-- The `LocalContext` (second source version): the auction-scope
coordinator.  `bidContexts` is the JS object keyed by ortb id, modelled as
an insertion-ordered association list (unique keys, as in a JS object). -/
structure LocalContext where
  /-- `bidContexts` — map from ortb id to `BidContext`. -/
  bidContexts : List (String × BidContext)
  /-- `_commonPayload` — payload fragments common to all bid contexts. -/
  commonPayload : JsVal
  /-- `auction` — the picked auction fields (null before `initialise`). -/
  auction : JsVal
  /-- `bidderRequests` — `auction.bidderRequests` (null before `initialise`). -/
  bidderRequests : JsVal
  /-- `commonBidContextEvents` — events logged before any bid context exists. -/
  commonBidContextEvents : List DebugEvent
  /-- `_commonBidContextEventsFlushed` — guards duplicate submission of the
  common events. -/
  commonFlushed : Bool
deriving Repr

/-- The state of a freshly constructed `LocalContext` (class field
initialisers). -/
def LocalContext.fresh : LocalContext :=
  { bidContexts := [], commonPayload := .vObj [], auction := .vNull,
    bidderRequests := .vNull, commonBidContextEvents := [], commonFlushed := false }

/-- `LocalContext.initialise(auction)`: stores the picked auction metadata
and the auction's bidder requests.  No other field is touched. -/
def LocalContext.initialise (lc : LocalContext) (auction : JsVal) : LocalContext :=
  { lc with auction := pick auction ["auctionId", "auctionEnd"],
            bidderRequests := jsGet auction "bidderRequests" }

/-- `BidContext.pushEvent(bugEvent, payload = undefined)`: appends the event
and, when a payload is given, merges it into the accumulated payload.  (The
`instanceof DebugEvent` check cannot fail in the typed model.) -/
def BidContext.pushEvent (bc : BidContext) (ev : DebugEvent) (payload : Option JsVal) :
    BidContext :=
  { bc with
    events := bc.events ++ [ev],
    payload := match payload with
      | some p => mergeDeep bc.payload p
      | none => bc.payload }

/-- `LocalContext.mergePayload(newValues)`: `mergeDeep(this._commonPayload, newValues)`. -/
def LocalContext.mergePayload (lc : LocalContext) (newValues : JsVal) : LocalContext :=
  { lc with commonPayload := mergeDeep lc.commonPayload newValues }

/-- `LocalContext.pushEventToAllBidContexts(debugEvent, payload)`: records
the event in the common log and merges the payload into the common payload;
when no bid context exists it clears the common-flushed flag and returns,
otherwise it pushes the event (with the merged common payload) to every bid
context. -/
def LocalContext.pushEventToAllBidContexts (lc : LocalContext) (ev : DebugEvent)
    (payload : JsVal) : LocalContext :=
  let lc1 := { lc with commonBidContextEvents := lc.commonBidContextEvents ++ [ev] }
  let lc2 := lc1.mergePayload payload
  if lc2.bidContexts.isEmpty then
    { lc2 with commonFlushed := false }
  else
    { lc2 with bidContexts :=
        lc2.bidContexts.map (fun p => (p.1, p.2.pushEvent ev (some lc2.commonPayload))) }

/-- The `BidContext.prebidBidRequest` getter: throws when
`prebidBidResponse` is falsy; otherwise searches
`localContext.bidderRequests.flatMap(br => br.bids)` for the bid request
whose `bidId` strictly equals `prebidBidResponse.requestId` (the `find`
yields `undefined` when absent). -/
def BidContext.prebidBidRequestOf (lc : LocalContext) (bc : BidContext) :
    Except JsError JsVal :=
  if ¬ truthy bc.prebidBidResponse then .error .prebidResponseUnavailable
  else
    let allBids := (asArr lc.bidderRequests).flatMap (fun br => asArr (jsGet br "bids"))
    let reqId := jsGet bc.prebidBidResponse "requestId"
    .ok ((allBids.find? (fun b => jsEq (jsGet b "bidId") reqId)).getD .vUndefined)

/-- The `BidContext.impid` getter: `ortbBidResponse.impid` when the wire bid
is present, else `prebidBidResponse.requestId`, else the `prebidBidRequest`
getter (whose evaluation throws here, because `prebidBidResponse` is falsy
on this branch), else `getImpId(payload)` when truthy, else throws. -/
def BidContext.impidOf (lc : LocalContext) (bc : BidContext) : Except JsError JsVal :=
  if truthy bc.ortbBidResponse then .ok (jsGet bc.ortbBidResponse "impid")
  else if truthy bc.prebidBidResponse then .ok (jsGet bc.prebidBidResponse "requestId")
  else
    match bc.prebidBidRequestOf lc with
    | .error e => .error e
    | .ok pbr =>
        if truthy pbr then .ok (jsGet pbr "bidId")
        else if truthy bc.payload ∧ truthy (getImpId bc.payload) then
          .ok (getImpId bc.payload)
        else .error .impidUnavailable

/-- The `BidContext.ortbId` getter: `getOrtbId` of the wire bid, else of the
interpreted response, else of the accumulated payload, else throws. -/
def BidContext.ortbIdOf (bc : BidContext) : Except JsError JsVal :=
  if truthy bc.ortbBidResponse then getOrtbId bc.ortbBidResponse
  else if truthy bc.prebidBidResponse then getOrtbId bc.prebidBidResponse
  else if truthy bc.payload then getOrtbId bc.payload
  else .error .ortbIdUnavailable

/-- The `BidContext` constructor (second source version): requires a truthy
`prebidOrOrtbBidResponse`; classifies it; any kind other than
`ORTB_BID` or `PREBID_RESPONSE_INTERPRETED` throws the
InvalidBidContextSeed error with a redacted dump; an `ORTB_BID` seeds the
wire bid, an interpreted response seeds both itself and its nested
`ortbBidResponse`.  The payload starts as the empty object and the event
list empty (class field initialisers). -/
def BidContext.make (bidResponse : JsVal) : Except JsError BidContext :=
  if ¬ truthy bidResponse then .error .bidResponseRequired
  else
    match determineObjType bidResponse with
    | .error e => .error e
    | .ok objType =>
        if objType = OBJECT_TYPES_ORTB_BID then
          .ok { prebidBidResponse := .vNull, ortbBidResponse := bidResponse,
                bidWin := false, lurlTriggered := false, events := [], payload := .vObj [] }
        else if objType = OBJECT_TYPES_PREBID_RESPONSE_INTERPRETED then
          .ok { prebidBidResponse := bidResponse,
                ortbBidResponse := jsGet bidResponse "ortbBidResponse",
                bidWin := false, lurlTriggered := false, events := [], payload := .vObj [] }
        else .error (.invalidBidContextSeed (redact bidResponse))

/-- A JS value used as a property key of `this.bidContexts`, mapped to the
string JS coerces it to (ids are strings in practice; the object cases use
the standard default tags). -/
def toKey : JsVal → String
  | .vStr s => s
  | .vNum n => toString n
  | .vBool b => toString b
  | .vNull => "null"
  | .vUndefined => "undefined"
  | .vArr _ => ""
  | .vObj _ => "[object Object]"

/-- The ortb-id resolution prologue of `retrieveBidContext`: `getOrtbId`
inside a try/catch that re-wraps any thrown error (including the inner
"ORTB ID is not available" check for a falsy id — dead in practice, since
`getOrtbId` only returns truthy values) into the "Failed to retrieve ORTB
ID" error. -/
def resolveOrtbIdForRetrieve (bid : JsVal) : Except JsError JsVal :=
  match getOrtbId bid with
  | .ok id =>
      if truthy id then .ok id
      else .error (.ortbIdRetrievalFailed (.ortbIdFalsy (redact bid)))
  | .error e => .error (.ortbIdRetrievalFailed e)

/-- `LocalContext.retrieveBidContext(bid)`: resolves the ortb id (wrapped
errors propagate); returns the existing context under that key if any;
otherwise constructs a new `BidContext` (constructor errors propagate,
leaving the state unchanged), pushes every cached common event into it (in
order, without payload), merges the common payload into it, stores it under
the key and returns it.  The pair returned is (state after the call, result
or thrown error); on every error path the state is the original one, as the
source only mutates `this.bidContexts` after all throwing steps. -/
def LocalContext.retrieveBidContext (lc : LocalContext) (bid : JsVal) :
    LocalContext × Except JsError BidContext :=
  match resolveOrtbIdForRetrieve bid with
  | .error e => (lc, .error e)
  | .ok ortbId =>
      let key := toKey ortbId
      match lookupField lc.bidContexts key with
      | some bc => (lc, .ok bc)
      | none =>
          match BidContext.make bid with
          | .error e => (lc, .error e)
          | .ok nbc0 =>
              let nbc1 := lc.commonBidContextEvents.foldl
                (fun b ev => b.pushEvent ev none) nbc0
              let nbc := { nbc1 with payload := mergeDeep nbc1.payload lc.commonPayload }
              ({ lc with bidContexts := lc.bidContexts ++ [(key, nbc)] }, .ok nbc)

/-- The loop body of `triggerAllLossBidLossBeacon` for one bid context:
when `ortbBidResponse.lurl` is truthy, the bid has not won and the beacon
has not fired, issue the GET (recorded by the returned flag) and set
`lurlTriggered` immediately, without awaiting the network. -/
def triggerStep (bc : BidContext) : BidContext × Bool :=
  if truthy (jsGet bc.ortbBidResponse "lurl") && !bc.bidWin && !bc.lurlTriggered then
    ({ bc with lurlTriggered := true }, true)
  else (bc, false)

/-- `LocalContext.triggerAllLossBidLossBeacon()` (second source version):
applies `triggerStep` to every bid context.  The second component lists the
GET requests issued in this call as pairs (context key, `lurl` value). -/
def LocalContext.triggerAllLossBidLossBeacon (lc : LocalContext) :
    LocalContext × List (String × JsVal) :=
  ({ lc with bidContexts := lc.bidContexts.map (fun p => (p.1, (triggerStep p.2).1)) },
   lc.bidContexts.filterMap (fun p =>
     if (triggerStep p.2).2 then some (p.1, jsGet p.2.ortbBidResponse "lurl") else none))

/-- `n` consecutive calls of `triggerAllLossBidLossBeacon`, accumulating
every GET issued along the way. -/
def triggerCalls (lc : LocalContext) : Nat → LocalContext × List (String × JsVal)
  | 0 => (lc, [])
  | n + 1 =>
      let (lc1, fired) := lc.triggerAllLossBidLossBeacon
      let (lc2, rest) := triggerCalls lc1 n
      (lc2, fired ++ rest)

/-- One HTTP POST body sent to `{endpoint}/debug` by
`flushAllDebugEvents` — the collector submission.  `bidWin` is a `JsVal`
because the common report sends `null` where a bid-context report sends the
boolean. -/
structure Submission where
  impid : JsVal
  ortbId : JsVal
  bidWin : JsVal
  events : List DebugEvent
  payload : JsVal
deriving Repr

/-- The body posted for one bid context inside `flushAllDebugEvents`.  The
getters evaluate inside the async closure; if one throws, that promise
rejects and no POST is made for this context (the `Except.error` case). -/
def bidContextSubmission (lc : LocalContext) (bc : BidContext) : Except JsError Submission :=
  match bc.impidOf lc with
  | .error e => .error e
  | .ok impid =>
      match bc.ortbIdOf with
      | .error e => .error e
      | .ok ortbId =>
          .ok { impid := impid, ortbId := ortbId, bidWin := .vBool bc.bidWin,
                events := bc.events, payload := bc.payload }

/-- `LocalContext.flushAllDebugEvents()` (second source version).  The
early-return guard compares `commonBidContextEvents.length < 0`, which is
never true (kept as in the source).  When no bid context exists, the common
events have not been flushed and some common event has error or warn
severity, one common report is posted (impid and ortbId derived from the
common payload, `bidWin: null`) and the flushed flag is set.  Then one
report per bid context is posted.  Returns the new state and the attempted
submissions in order (common report first). -/
def LocalContext.flushAllDebugEvents (lc : LocalContext) :
    LocalContext × List (Except JsError Submission) :=
  if lc.commonBidContextEvents.length < 0 ∧ lc.bidContexts.isEmpty then (lc, [])
  else
    let doCommon : Bool :=
      lc.bidContexts.isEmpty && !lc.commonFlushed &&
      lc.commonBidContextEvents.any (fun e => e.level = "error" || e.level = "warn")
    let lc1 := if doCommon then { lc with commonFlushed := true } else lc
    let commonSubs : List (Except JsError Submission) :=
      if doCommon then
        [.ok { impid := getImpId lc.commonPayload, ortbId := safeGetOrtbId lc.commonPayload,
               bidWin := .vNull, events := lc.commonBidContextEvents,
               payload := lc.commonPayload }]
      else []
    (lc1, commonSubs ++ lc.bidContexts.map (fun p => bidContextSubmission lc p.2))

/-- Two consecutive `flushAllDebugEvents` calls with nothing in between:
the states and the two submission batches. -/
def flushTwice (lc : LocalContext) :
    LocalContext × List (Except JsError Submission) × List (Except JsError Submission) :=
  let (lc1, subs1) := lc.flushAllDebugEvents
  let (lc2, subs2) := lc1.flushAllDebugEvents
  (lc2, subs1, subs2)

/-- The catch block of `mobkoiAnalytics.track` (second source version):
builds an error-severity `DebugEvent` (timestamp from `eventArgs.timestamp`,
note "Error occurred when processing this event.") — this construction can
itself throw — and routes it through `pushEventToAllBidContexts` with a
payload fragment keyed `<eventType>_caughtError` holding the redacted event
arguments and the caught error's message. -/
def trackCatch (lc : LocalContext) (eventType : String) (eventArgs : JsVal)
    (errMsg : String) (now : Int) : Except JsError LocalContext :=
  match DebugEvent.make eventType "error" (jsGet eventArgs "timestamp")
      (some "Error occurred when processing this event.") now with
  | .error e => .error e
  | .ok ev =>
      let fragment : JsVal :=
        .vObj [(eventType ++ "_caughtError",
          .vObj [("eventArgs", redact eventArgs), ("error", .vStr errMsg)])]
      .ok (lc.pushEventToAllBidContexts ev fragment)

/-- `mobkoiAnalytics.track` once the event-specific handler has raised an
exception with message `errMsg`: the catch block runs and then
`throw error` re-raises the original exception to the host framework.
Returns the state after the catch block together with the message of the
exception that propagates (the original one — unless the synthetic
`DebugEvent` construction itself threw, in which case that new error
propagates instead and the state is unchanged). -/
def trackOnError (lc : LocalContext) (eventType : String) (eventArgs : JsVal)
    (errMsg : String) (now : Int) : LocalContext × String :=
  match trackCatch lc eventType eventArgs errMsg now with
  | .ok lc1 => (lc1, errMsg)
  | .error e => (lc, e.message)

/-- Navigate a value along a path of own-property names (`some` exactly
when every step goes through an object or array that has the key; array
elements are reached by their decimal index strings, matching
`Object.keys`).  Used to state what `omitRecursive` does at arbitrary
nesting depth. -/
def getPath : JsVal → List String → Option JsVal
  | v, [] => some v
  | .vObj fields, k :: rest =>
      match lookupField fields k with
      | some v => getPath v rest
      | none => none
  | .vArr items, k :: rest =>
      match lookupField (indexEntries 0 items) k with
      | some v => getPath v rest
      | none => none
  | _, _ => none

/-- The union of every kind's unique-field set — the fields that act as
shape discriminators.  A field outside this list is "unrelated" to
classification. -/
def allDiscriminatorFields : List String :=
  (OBJECT_TYPES_UNIQUE_FIELDS.map Prod.snd).flatten

/-- Whether `determineObjType` classifies the value as the raw-wire-bid kind. -/
def classifiesAsOrtbBid (bid : JsVal) : Bool :=
  match determineObjType bid with
  | .ok t => t = OBJECT_TYPES_ORTB_BID
  | .error _ => false

/-- The ortb-id resolution algorithm exactly as the specification words it,
for comparison with the source function `getOrtbId`: branch (a) uses the
direct self-id field only when the payload's classified kind is the
raw-wire-bid kind; then the alias field; then the nested wire response's
self-id; else the IdentifierMissing failure with a redacted dump. -/
def getOrtbIdSpecWording (bid : JsVal) : Except JsError JsVal :=
  if truthy (jsGet bid "id") && classifiesAsOrtbBid bid then .ok (jsGet bid "id")
  else if truthy (jsGet bid "ortbId") then .ok (jsGet bid "ortbId")
  else if truthy (jsGet bid "ortbBidResponse") && truthy (jsGet (jsGet bid "ortbBidResponse") "id") then
    .ok (jsGet (jsGet bid "ortbBidResponse") "id")
  else .error (.identifierMissing (redact bid))

/-! ## Concrete fixtures for counterexamples and witnesses -/

/-- A well-formed raw wire bid (classifies as `ORTB_BID`) with a
loss-notification URL. -/
def fixtureOrtbBid : JsVal :=
  .vObj [("id", .vStr "o1"), ("adm", .vStr "<markup>"), ("impid", .vStr "i1"),
         ("lurl", .vStr "https://ads.example/loss")]

/-- An info-severity debug event. -/
def fixtureEventInfo : DebugEvent :=
  { eventType := "auctionInit", level := "info", timestamp := 1, note := none }

/-- An error-severity debug event. -/
def fixtureEventError : DebugEvent :=
  { eventType := "auctionTimeout", level := "error", timestamp := 2, note := none }

/-- A bid context seeded from `fixtureOrtbBid`, not yet won, beacon not yet
fired. -/
def fixtureBidContext : BidContext :=
  { prebidBidResponse := .vNull, ortbBidResponse := fixtureOrtbBid, bidWin := false,
    lurlTriggered := false, events := [fixtureEventInfo], payload := .vObj [] }

/-- A coordinator mid-auction: one bid context, one common event, a
nonempty common payload. -/
def fixtureMidAuction : LocalContext :=
  { bidContexts := [("o1", fixtureBidContext)],
    commonPayload := .vObj [("k", .vNum 1)],
    auction := .vObj [("auctionId", .vStr "a1")],
    bidderRequests := .vArr [],
    commonBidContextEvents := [fixtureEventInfo],
    commonFlushed := false }

/-- A second auction's init payload. -/
def fixtureAuction2 : JsVal :=
  .vObj [("auctionId", .vStr "a2"), ("auctionEnd", .vNum 99),
         ("bidderRequests", .vArr []), ("timestamp", .vNum 50)]

/-- A payload holding both a direct self-id and the alias field but
classified as the auction kind (it has `auctionStatus`) — the input on
which the source resolver and the spec-worded resolver disagree. -/
def c6Bid : JsVal :=
  .vObj [("auctionStatus", .vStr "completed"), ("id", .vStr "X"), ("ortbId", .vStr "Y")]

/-- A coordinator where no bid context was ever created, the common log
holds an error-severity event, the common flag is unset, and the cached
bidder-request table knows two ad-slot bid requests. -/
def c3State : LocalContext :=
  { bidContexts := [],
    commonPayload := .vObj [],
    auction := .vObj [("auctionId", .vStr "a1")],
    bidderRequests := .vArr [.vObj [("bidderRequestId", .vStr "br1"),
      ("bids", .vArr [.vObj [("bidId", .vStr "b1")], .vObj [("bidId", .vStr "b2")]])]],
    commonBidContextEvents := [fixtureEventInfo, fixtureEventError],
    commonFlushed := false }

/-! ## Claims -/

/-- C1 counterexample: `fixtureMidAuction` holds a bid context and a common
event from the running auction; after `initialise` with a new auction
payload both survive — the per-auction state is not replaced, contradicting
the claim that the bid-context set and common log are fresh/empty after the
call.  (The auction metadata itself does get replaced.) -/
theorem C1_counterexample :
    ((fixtureMidAuction.initialise fixtureAuction2).bidContexts.isEmpty = false) ∧
    ((fixtureMidAuction.initialise fixtureAuction2).commonBidContextEvents.isEmpty = false) ∧
    jsGet (fixtureMidAuction.initialise fixtureAuction2).auction "auctionId" = .vStr "a2" :=
  ⟨rfl, rfl, rfl⟩

/-- C1 (amended): `LocalContext.initialise` replaces only the auction
metadata (the picked `auctionId`/`auctionEnd`) and the bidder-request
table; the bid-context set, the common event log, the common payload
accumulator and the common-flushed flag are left exactly as they were. -/
theorem C1_initialise_updates_only_auction_fields (lc : LocalContext) (auction : JsVal) :
    (lc.initialise auction).auction = pick auction ["auctionId", "auctionEnd"] ∧
    (lc.initialise auction).bidderRequests = jsGet auction "bidderRequests" ∧
    (lc.initialise auction).bidContexts = lc.bidContexts ∧
    (lc.initialise auction).commonPayload = lc.commonPayload ∧
    (lc.initialise auction).commonBidContextEvents = lc.commonBidContextEvents ∧
    (lc.initialise auction).commonFlushed = lc.commonFlushed :=
  ⟨rfl, rfl, rfl, rfl, rfl, rfl⟩

/-- C6 counterexample: on `c6Bid` the claim's algorithm (branch (a) gated
on the raw-wire-bid kind) returns the alias "Y", while the source
`getOrtbId` returns the direct id "X" regardless of the classified kind —
the source does not gate branch (a) on the classification. -/
theorem C6_counterexample :
    getOrtbId c6Bid = .ok (.vStr "X") ∧
    getOrtbIdSpecWording c6Bid = .ok (.vStr "Y") ∧
    determineObjType c6Bid = .ok OBJECT_TYPES_AUCTION ∧
    (JsVal.vStr "X" = JsVal.vStr "Y" → False) :=
  ⟨rfl, rfl, rfl, fun h => absurd (JsVal.vStr.inj h) (by decide)⟩

/-- C6 (amended): `getOrtbId` tries, in order: (a) the payload's direct
self-id field whenever it is truthy — with no condition on the classified
kind (the kind check in the source is only a debug-time console warning);
(b) the `ortbId` alias; (c) a nested wire-bid-response's own self-id; the
first match wins, and when none matches it fails carrying a redacted dump
of the input. -/
theorem C6_getOrtbId_priority (bid : JsVal) :
    (truthy (jsGet bid "id") = true → getOrtbId bid = .ok (jsGet bid "id")) ∧
    (truthy (jsGet bid "id") = false → truthy (jsGet bid "ortbId") = true →
      getOrtbId bid = .ok (jsGet bid "ortbId")) ∧
    (truthy (jsGet bid "id") = false → truthy (jsGet bid "ortbId") = false →
      (truthy (jsGet bid "ortbBidResponse") && truthy (jsGet (jsGet bid "ortbBidResponse") "id")) = true →
      getOrtbId bid = .ok (jsGet (jsGet bid "ortbBidResponse") "id")) ∧
    (truthy (jsGet bid "id") = false → truthy (jsGet bid "ortbId") = false →
      (truthy (jsGet bid "ortbBidResponse") && truthy (jsGet (jsGet bid "ortbBidResponse") "id")) = false →
      getOrtbId bid = .error (.identifierMissing (redact bid))) := by
  unfold getOrtbId
  refine ⟨?_, ?_, ?_, ?_⟩ <;> intros <;> simp_all

/-- C6 witness: the amended priority theorem applied to the concrete
`c6Bid`, discharging the branch (a) hypothesis. -/
theorem C6_witness :
    truthy (jsGet c6Bid "id") = true ∧ getOrtbId c6Bid = .ok (jsGet c6Bid "id") :=
  ⟨rfl, (C6_getOrtbId_priority c6Bid).1 rfl⟩

/-- C9 counterexample: a `DebugEvent` constructed with a supplied `null`
timestamp — which is not a numeric epoch value — succeeds (the source only
rejects a timestamp that is truthy and not a number; a falsy one silently
falls back to `Date.now()`), contradicting the claimed "only if". -/
theorem C9_counterexample :
    DebugEvent.make "testEvent" "info" JsVal.vNull none 7 =
      .ok { eventType := "testEvent", level := "info", timestamp := 7, note := none } ∧
    JsVal.isNum JsVal.vNull = false :=
  ⟨rfl, rfl⟩

/-- C9 (amended): constructing a `DebugEvent` fails if and only if the
event kind is empty, or the severity level is not one of info/warn/error,
or the supplied timestamp is truthy (in particular non-null) yet not a
number.  A falsy timestamp — absent, null, or zero — is accepted and
replaced by the current clock. -/
theorem C9_make_error_iff (eventType level : String) (timestamp : JsVal)
    (note : Option String) (now : Int) :
    (∃ e, DebugEvent.make eventType level timestamp note now = .error e) ↔
      (eventType = "" ∨ DEBUG_EVENT_LEVELS.contains level = false ∨
        (truthy timestamp = true ∧ timestamp.isNum = false)) := by
  unfold DebugEvent.make
  split_ifs with h1 h2 h3 <;> simp_all

/-- `omitFields` preserves the key list (only values are rewritten). -/
theorem keys_omitFields (fields : List (String × JsVal)) (keysToOmit : List String)
    (ph : JsVal) :
    (omitFields fields keysToOmit ph).map Prod.fst = fields.map Prod.fst := by
  induction fields with
  | nil => rfl
  | cons kv rest ih =>
      obtain ⟨k0, v⟩ := kv
      simp only [omitFields, List.map_cons, ih]

/-- `lookupField` at the head key. -/
theorem lookupField_cons_self {α : Type} (k : String) (v : α) (rest : List (String × α)) :
    lookupField ((k, v) :: rest) k = some v := by
  simp [lookupField]

/-- `lookupField` skips a head entry with a different key. -/
theorem lookupField_cons_ne {α : Type} (k0 k : String) (v : α) (rest : List (String × α))
    (h : k0 ≠ k) : lookupField ((k0, v) :: rest) k = lookupField rest k := by
  simp [lookupField, h]

/-- One step of `omitFields`, with the stored value named. -/
theorem omitFields_cons (k0 : String) (v : JsVal) (rest : List (String × JsVal))
    (keysToOmit : List String) (ph : JsVal) :
    omitFields ((k0, v) :: rest) keysToOmit ph =
      (k0, omitResultValue keysToOmit ph k0 v) :: omitFields rest keysToOmit ph := by
  cases v <;> by_cases h : k0 ∈ keysToOmit <;>
    simp [omitFields, omitResultValue, omitRecursive, h]

/-- Looking a key up after `omitFields` yields `omitResultValue` of the
original value. -/
theorem lookup_omitFields (fields : List (String × JsVal)) (keysToOmit : List String)
    (ph : JsVal) (k : String) :
    lookupField (omitFields fields keysToOmit ph) k =
      (lookupField fields k).map (omitResultValue keysToOmit ph k) := by
  induction fields with
  | nil => rfl
  | cons kv rest ih =>
      obtain ⟨k0, v⟩ := kv
      rw [omitFields_cons]
      by_cases hk : k0 = k
      · subst hk
        rw [lookupField_cons_self, lookupField_cons_self]
        rfl
      · rw [lookupField_cons_ne _ _ _ _ hk, lookupField_cons_ne _ _ _ _ hk, ih]

/-- Walking an array value applies the same per-key step as walking its
`Object.keys` view (decimal index strings). -/
theorem omitItems_eq_fields (items : List JsVal) (keysToOmit : List String) (ph : JsVal) :
    ∀ i : Nat, omitItems i items keysToOmit ph =
      omitFields (indexEntries i items) keysToOmit ph := by
  induction items with
  | nil => intro i; rfl
  | cons v rest ih =>
      intro i
      show omitItems i (v :: rest) keysToOmit ph =
        omitFields ((toString i, v) :: indexEntries (i + 1) rest) keysToOmit ph
      cases v <;> by_cases h : toString i ∈ keysToOmit <;>
        simp [omitItems, omitFields, h, ih (i + 1)]

/-- C10: `omitRecursive(obj, keysToOmit, placeholder)` maps, at any nesting
depth reachable without crossing an omitted key, every key in `keysToOmit`
to the placeholder and every other key to its original value — with
non-null object values, arrays included, processed recursively, an array
being rebuilt as the index-keyed plain object its reduce produces; keys
are neither added, dropped nor reordered.  Mutation of the input cannot
arise in the pure model, matching the source, whose reduce builds a fresh
accumulator object at every level. -/
theorem C10_omitRecursive_spec (obj ph : JsVal) (keysToOmit : List String)
    (p : List String) (k : String) (v : JsVal)
    (hp : ∀ a ∈ p, a ∉ keysToOmit)
    (hv : getPath obj (p ++ [k]) = some v) :
    getPath (omitRecursive obj keysToOmit ph) (p ++ [k]) =
      some (omitResultValue keysToOmit ph k v) ∧
    (∀ fields : List (String × JsVal),
      (omitFields fields keysToOmit ph).map Prod.fst = fields.map Prod.fst) := by
  refine ⟨?_, fun fields => keys_omitFields fields keysToOmit ph⟩
  induction p generalizing obj with
  | nil =>
      cases obj with
      | vObj fields =>
          simp only [List.nil_append, getPath] at hv ⊢
          simp only [omitRecursive, getPath, lookup_omitFields]
          cases hlk : lookupField fields k with
          | none => rw [hlk] at hv; simp at hv
          | some w =>
              rw [hlk] at hv
              simp only [getPath] at hv
              cases hv
              simp [getPath]
      | vArr items =>
          simp only [List.nil_append, getPath] at hv ⊢
          simp only [omitItems_eq_fields, lookup_omitFields]
          cases hlk : lookupField (indexEntries 0 items) k with
          | none => rw [hlk] at hv; simp at hv
          | some w =>
              rw [hlk] at hv
              simp only [getPath] at hv
              cases hv
              simp [getPath]
      | vNum n => simp [getPath] at hv
      | vStr s => simp [getPath] at hv
      | vBool b => simp [getPath] at hv
      | vNull => simp [getPath] at hv
      | vUndefined => simp [getPath] at hv
  | cons a p' ih =>
      have ha : a ∉ keysToOmit := hp a (List.mem_cons_self a p')
      have hp' : ∀ b ∈ p', b ∉ keysToOmit := fun b hb => hp b (List.mem_cons_of_mem a hb)
      cases obj with
      | vObj fields =>
          simp only [List.cons_append, getPath] at hv ⊢
          cases hlk : lookupField fields a with
          | none => rw [hlk] at hv; simp at hv
          | some w =>
              rw [hlk] at hv
              simp only [omitRecursive, getPath, lookup_omitFields, hlk, Option.map]
              cases w with
              | vObj ws =>
                  have hres : omitResultValue keysToOmit ph a (JsVal.vObj ws) =
                      JsVal.vObj (omitFields ws keysToOmit ph) := by
                    simp [omitResultValue, if_neg ha]
                  have hv' : getPath (JsVal.vObj ws) (p' ++ [k]) = some v := hv
                  have step := ih (JsVal.vObj ws) hp' hv'
                  calc getPath (omitResultValue keysToOmit ph a (JsVal.vObj ws)) (p' ++ [k])
                      = getPath (JsVal.vObj (omitFields ws keysToOmit ph)) (p' ++ [k]) := by
                        rw [hres]
                    _ = some (omitResultValue keysToOmit ph k v) := step
              | vArr ws =>
                  have hres : omitResultValue keysToOmit ph a (JsVal.vArr ws) =
                      JsVal.vObj (omitItems 0 ws keysToOmit ph) := by
                    simp [omitResultValue, if_neg ha]
                  have hv' : getPath (JsVal.vArr ws) (p' ++ [k]) = some v := hv
                  have step := ih (JsVal.vArr ws) hp' hv'
                  calc getPath (omitResultValue keysToOmit ph a (JsVal.vArr ws)) (p' ++ [k])
                      = getPath (JsVal.vObj (omitItems 0 ws keysToOmit ph)) (p' ++ [k]) := by
                        rw [hres]
                    _ = some (omitResultValue keysToOmit ph k v) := step
              | vNum n => simp [getPath] at hv
              | vStr s => simp [getPath] at hv
              | vBool b => simp [getPath] at hv
              | vNull => simp [getPath] at hv
              | vUndefined => simp [getPath] at hv
      | vArr items =>
          simp only [List.cons_append, getPath] at hv ⊢
          cases hlk : lookupField (indexEntries 0 items) a with
          | none => rw [hlk] at hv; simp at hv
          | some w =>
              rw [hlk] at hv
              simp only [omitItems_eq_fields, lookup_omitFields, hlk, Option.map]
              cases w with
              | vObj ws =>
                  have hres : omitResultValue keysToOmit ph a (JsVal.vObj ws) =
                      JsVal.vObj (omitFields ws keysToOmit ph) := by
                    simp [omitResultValue, if_neg ha]
                  have hv' : getPath (JsVal.vObj ws) (p' ++ [k]) = some v := hv
                  have step := ih (JsVal.vObj ws) hp' hv'
                  calc getPath (omitResultValue keysToOmit ph a (JsVal.vObj ws)) (p' ++ [k])
                      = getPath (JsVal.vObj (omitFields ws keysToOmit ph)) (p' ++ [k]) := by
                        rw [hres]
                    _ = some (omitResultValue keysToOmit ph k v) := step
              | vArr ws =>
                  have hres : omitResultValue keysToOmit ph a (JsVal.vArr ws) =
                      JsVal.vObj (omitItems 0 ws keysToOmit ph) := by
                    simp [omitResultValue, if_neg ha]
                  have hv' : getPath (JsVal.vArr ws) (p' ++ [k]) = some v := hv
                  have step := ih (JsVal.vArr ws) hp' hv'
                  calc getPath (omitResultValue keysToOmit ph a (JsVal.vArr ws)) (p' ++ [k])
                      = getPath (JsVal.vObj (omitItems 0 ws keysToOmit ph)) (p' ++ [k]) := by
                        rw [hres]
                    _ = some (omitResultValue keysToOmit ph k v) := step
              | vNum n => simp [getPath] at hv
              | vStr s => simp [getPath] at hv
              | vBool b => simp [getPath] at hv
              | vNull => simp [getPath] at hv
              | vUndefined => simp [getPath] at hv
      | vNum n => simp [getPath] at hv
      | vStr s => simp [getPath] at hv
      | vBool b => simp [getPath] at hv
      | vNull => simp [getPath] at hv
      | vUndefined => simp [getPath] at hv

/-- Appending fields none of which is named `f` does not change
`hasOwnProperty(f)`. -/
theorem hasOwn_append_of_fresh (fields extra : List (String × JsVal)) (f : String)
    (hf : ∀ p ∈ extra, p.1 ≠ f) :
    hasOwn (JsVal.vObj (fields ++ extra)) f = hasOwn (JsVal.vObj fields) f := by
  simp only [hasOwn, List.any_append]
  have : extra.any (fun p => p.1 = f) = false := by
    simp only [List.any_eq_false]
    intro p hp
    simpa using hf p hp
  rw [this, Bool.or_false]

/-- A kind's whole-unique-field-set check is unchanged by appending fields
whose names all avoid the checked set. -/
theorem kindCheck_append (flds : List String) (fields extra : List (String × JsVal))
    (hfresh : ∀ f ∈ flds, ∀ p ∈ extra, p.1 ≠ f) :
    (flds.all fun f => hasOwn (JsVal.vObj (fields ++ extra)) f) =
      (flds.all fun f => hasOwn (JsVal.vObj fields) f) := by
  induction flds with
  | nil => rfl
  | cons f0 fs ih =>
      rw [List.all_cons, List.all_cons,
          hasOwn_append_of_fresh fields extra f0 (hfresh f0 (List.mem_cons_self f0 fs)),
          ih fun g hg => hfresh g (List.mem_cons_of_mem f0 hg)]

/-- The kind search of `determineObjType` lands on the same entry on both
the original and the extended payload when every entry's check agrees. -/
theorem kindSearch_append (entries : List (String × List String))
    (fields extra : List (String × JsVal))
    (hsame : ∀ e ∈ entries,
      (e.2.all fun f => hasOwn (JsVal.vObj (fields ++ extra)) f) =
      (e.2.all fun f => hasOwn (JsVal.vObj fields) f)) :
    entries.find? (fun e => e.2.all fun f => hasOwn (JsVal.vObj (fields ++ extra)) f) =
      entries.find? (fun e => e.2.all fun f => hasOwn (JsVal.vObj fields) f) := by
  induction entries with
  | nil => rfl
  | cons e0 es ih =>
      rw [List.find?_cons, List.find?_cons, hsame e0 (List.mem_cons_self e0 es),
          ih fun e he => hsame e (List.mem_cons_of_mem e0 he)]

/-- C7: classification is stable under extension by unrelated fields — for
every payload that `determineObjType` maps to kind `K`, the payload
extended with extra fields none of which is a discriminator field of any
kind (the union of `OBJECT_TYPES_UNIQUE_FIELDS`) still classifies as `K`,
because each kind matches exactly when its whole unique-field set is
present and the extra fields change no such presence check. -/
theorem C7_classification_ignores_unrelated_fields (fields extra : List (String × JsVal))
    (K : String)
    (hK : determineObjType (JsVal.vObj fields) = .ok K)
    (hextra : ∀ p ∈ extra, p.1 ∉ allDiscriminatorFields) :
    determineObjType (JsVal.vObj (fields ++ extra)) = .ok K := by
  have hdisc : ∀ entry ∈ OBJECT_TYPES_UNIQUE_FIELDS, ∀ f ∈ entry.2,
      f ∈ allDiscriminatorFields := by
    intro entry hentry f hf
    simp only [allDiscriminatorFields, List.mem_flatten, List.mem_map]
    exact ⟨entry.2, ⟨entry, hentry, rfl⟩, hf⟩
  have hpred : ∀ entry ∈ OBJECT_TYPES_UNIQUE_FIELDS,
      (entry.2.all (fun f => hasOwn (JsVal.vObj (fields ++ extra)) f)) =
      (entry.2.all (fun f => hasOwn (JsVal.vObj fields) f)) := by
    intro entry hentry
    apply kindCheck_append
    intro f hf p hp hcontra
    exact hextra p hp (hcontra ▸ hdisc entry hentry f hf)
  have hK' : (match OBJECT_TYPES_UNIQUE_FIELDS.find?
        (fun p => p.2.all fun f => hasOwn (JsVal.vObj fields) f) with
      | some p => (Except.ok p.1 : Except JsError String)
      | none => .error (.unclassifiableShape (redact (JsVal.vObj fields)))) = .ok K := hK
  show (match OBJECT_TYPES_UNIQUE_FIELDS.find?
        (fun p => p.2.all fun f => hasOwn (JsVal.vObj (fields ++ extra)) f) with
      | some p => (Except.ok p.1 : Except JsError String)
      | none => .error (.unclassifiableShape (redact (JsVal.vObj (fields ++ extra))))) = .ok K
  rw [kindSearch_append OBJECT_TYPES_UNIQUE_FIELDS fields extra hpred]
  cases hfind : OBJECT_TYPES_UNIQUE_FIELDS.find?
      (fun p => p.2.all fun f => hasOwn (JsVal.vObj fields) f) with
  | none => rw [hfind] at hK'; cases hK'
  | some entry => rw [hfind] at hK'; exact hK'

/-- C7 witness: a bidder-request payload keeps its kind when extended with
two fields that are not discriminators of any kind. -/
theorem C7_witness :
    determineObjType (JsVal.vObj [("bidderRequestId", JsVal.vStr "br1")]) =
      .ok OBJECT_TYPES_BIDDER_REQUEST ∧
    determineObjType (JsVal.vObj ([("bidderRequestId", JsVal.vStr "br1")] ++
      [("foo", JsVal.vNum 1), ("timestamp", JsVal.vNum 2)])) =
      .ok OBJECT_TYPES_BIDDER_REQUEST :=
  ⟨rfl, C7_classification_ignores_unrelated_fields
    [("bidderRequestId", JsVal.vStr "br1")]
    [("foo", JsVal.vNum 1), ("timestamp", JsVal.vNum 2)]
    OBJECT_TYPES_BIDDER_REQUEST rfl (by decide)⟩

/-- The observable shape of one `flushAllDebugEvents` call: the bid-context
map and the common log are untouched, the flushed flag becomes true exactly
when it was true already or the common path fires now, and the number of
attempted submissions is one per bid context plus one for the common report
when the zero-context guarded path fires. -/
theorem flush_shape (lc : LocalContext) :
    (lc.flushAllDebugEvents).1.bidContexts = lc.bidContexts ∧
    (lc.flushAllDebugEvents).1.commonBidContextEvents = lc.commonBidContextEvents ∧
    (lc.flushAllDebugEvents).1.commonFlushed =
      (lc.commonFlushed || (lc.bidContexts.isEmpty &&
        lc.commonBidContextEvents.any (fun e => e.level = "error" || e.level = "warn"))) ∧
    (lc.flushAllDebugEvents).2.length =
      (if (lc.bidContexts.isEmpty && !lc.commonFlushed &&
          lc.commonBidContextEvents.any (fun e => e.level = "error" || e.level = "warn")) = true
       then 1 else 0) + lc.bidContexts.length := by
  have hguard : ¬ (lc.commonBidContextEvents.length < 0 ∧ lc.bidContexts.isEmpty = true) :=
    fun hcon => absurd hcon.1 (Nat.not_lt_zero _)
  unfold LocalContext.flushAllDebugEvents
  rw [if_neg hguard]
  cases hd : (lc.bidContexts.isEmpty && !lc.commonFlushed &&
      lc.commonBidContextEvents.any (fun e => e.level = "error" || e.level = "warn")) with
  | true =>
      have hflushed : lc.commonFlushed = false := by
        by_contra hc
        rw [Bool.not_eq_false] at hc
        simp [hc] at hd
      have hrest : (lc.bidContexts.isEmpty &&
          lc.commonBidContextEvents.any (fun e => e.level = "error" || e.level = "warn")) = true := by
        rw [hflushed] at hd
        simpa using hd
      refine ⟨by simp [hd], by simp [hd], by simp [hd, hflushed, hrest], ?_⟩
      simp [hd]
      omega
  | false =>
      refine ⟨by simp [hd], by simp [hd], ?_, by simp [hd]⟩
      simp only [hd]
      cases hf : lc.commonFlushed with
      | true => simp [hf]
      | false =>
          have hd2 : (lc.bidContexts.isEmpty &&
              lc.commonBidContextEvents.any (fun e => e.level = "error" || e.level = "warn")) = false := by
            rw [hf] at hd
            simp only [Bool.not_false, Bool.and_true] at hd
            exact hd
          simp [hf, hd2]

/-- C2 counterexample: on a coordinator with exactly one Bid Context, two
consecutive `flushAllDebugEvents` calls with no events in between submit
one report on the first call and one again — not zero — on the second:
there is no per-context flushed guard. -/
theorem C2_counterexample :
    (flushTwice fixtureMidAuction).2.1.length = 1 ∧
    (flushTwice fixtureMidAuction).2.2.length = 1 :=
  ⟨rfl, rfl⟩

/-- C2 (amended): each `flushAllDebugEvents` call attempts one collector
submission per existing Bid Context — the second call re-submits them all,
since only the common/orphan path carries a flushed-once guard.  The second
call produces zero submissions exactly in the zero-Bid-Context case (where
the guard, or the absence of warn/error events, silences the common
report). -/
theorem C2_flush_twice (lc : LocalContext) :
    ((flushTwice lc).2.2).length = lc.bidContexts.length ∧
    (lc.bidContexts ≠ [] → ((flushTwice lc).2.1).length = lc.bidContexts.length) ∧
    (lc.bidContexts = [] → (flushTwice lc).2.2 = []) := by
  obtain ⟨hb1, he1, hf1, hl1⟩ := flush_shape lc
  obtain ⟨hb2, he2, hf2, hl2⟩ := flush_shape (lc.flushAllDebugEvents).1
  have hsnd : flushTwice lc = ((lc.flushAllDebugEvents).1.flushAllDebugEvents.1,
      (lc.flushAllDebugEvents).2, (lc.flushAllDebugEvents).1.flushAllDebugEvents.2) := rfl
  have hd2 : ((lc.flushAllDebugEvents).1.bidContexts.isEmpty &&
      !(lc.flushAllDebugEvents).1.commonFlushed &&
      (lc.flushAllDebugEvents).1.commonBidContextEvents.any
        (fun e => e.level = "error" || e.level = "warn")) = false := by
    rw [hb1, he1, hf1]
    cases hE : lc.bidContexts.isEmpty with
    | false => simp
    | true =>
        cases hA : lc.commonBidContextEvents.any (fun e => e.level = "error" || e.level = "warn") with
        | false => simp [hA]
        | true => simp [hE, hA]
  refine ⟨?_, ?_, ?_⟩
  · rw [hsnd]
    show (lc.flushAllDebugEvents).1.flushAllDebugEvents.2.length = lc.bidContexts.length
    rw [hl2, hd2]
    simp [hb1]
  · intro hne
    rw [hsnd]
    show (lc.flushAllDebugEvents).2.length = lc.bidContexts.length
    rw [hl1]
    have hE : lc.bidContexts.isEmpty = false := by
      cases hcc : lc.bidContexts with
      | nil => exact absurd hcc hne
      | cons a l => simp
    simp [hE]
  · intro hnil
    rw [hsnd]
    show (lc.flushAllDebugEvents).1.flushAllDebugEvents.2 = []
    have hlen : (lc.flushAllDebugEvents).1.flushAllDebugEvents.2.length = 0 := by
      rw [hl2, hd2]
      simp [hb1, hnil]
    exact List.length_eq_zero.mp hlen

/-- C2 witness: the amended flush-twice theorem applied to the concrete
mid-auction coordinator, discharging the nonempty-context hypothesis. -/
theorem C2_witness :
    fixtureMidAuction.bidContexts ≠ [] ∧
    ((flushTwice fixtureMidAuction).2.1).length = fixtureMidAuction.bidContexts.length :=
  ⟨by simp [fixtureMidAuction], (C2_flush_twice fixtureMidAuction).2.1 (by simp [fixtureMidAuction])⟩

/-- C3 counterexample: with zero Bid Contexts, an unset common-flushed
flag, an error-severity common event and a bidder-request table holding two
ad-slot bid requests, `flushAllDebugEvents` emits exactly one combined
report — not one per ad-slot bid request — and its `impid` is derived from
the (empty) common payload, not stamped with either slot's id. -/
theorem C3_counterexample :
    ((asArr c3State.bidderRequests).flatMap (fun br => asArr (jsGet br "bids"))).length = 2 ∧
    (c3State.flushAllDebugEvents).2.length = 1 ∧
    (c3State.flushAllDebugEvents).2 =
      [.ok { impid := .vNull, ortbId := .vNull, bidWin := .vNull,
             events := [fixtureEventInfo, fixtureEventError], payload := .vObj [] }] :=
  ⟨rfl, rfl, rfl⟩

/-- C3 (amended): if no Bid Context exists, the common-flushed flag is
unset, and the common log holds a warn- or error-severity event, then
`flushAllDebugEvents` emits exactly one synthetic report, whose fields are
derived from the accumulated common payload (`getImpId`/`safeGetOrtbId`,
null when absent) with `bidWin` null and the whole common log attached; the
cached bidder-request table plays no part, and the flushed flag is set so
the report is not re-sent. -/
theorem C3_common_flush (lc : LocalContext)
    (h1 : lc.bidContexts = [])
    (h2 : lc.commonFlushed = false)
    (h3 : lc.commonBidContextEvents.any (fun e => e.level = "error" || e.level = "warn") = true) :
    (lc.flushAllDebugEvents).2 =
      [.ok { impid := getImpId lc.commonPayload, ortbId := safeGetOrtbId lc.commonPayload,
             bidWin := .vNull, events := lc.commonBidContextEvents,
             payload := lc.commonPayload }] ∧
    (lc.flushAllDebugEvents).1.commonFlushed = true := by
  unfold LocalContext.flushAllDebugEvents
  split_ifs with h
  · exact absurd h.1 (Nat.not_lt_zero _)
  · simp [h1, h2, h3]

/-- C3 witness: the amended common-flush theorem applied to the concrete
zero-context state. -/
theorem C3_witness :
    (c3State.flushAllDebugEvents).2 =
      [.ok { impid := getImpId c3State.commonPayload, ortbId := safeGetOrtbId c3State.commonPayload,
             bidWin := .vNull, events := c3State.commonBidContextEvents,
             payload := c3State.commonPayload }] ∧
    (c3State.flushAllDebugEvents).1.commonFlushed = true :=
  C3_common_flush c3State rfl rfl rfl

/-- The per-context update of one trigger call preserves the key list. -/
theorem trigger_map_fst (l : List (String × BidContext)) :
    (l.map (fun p => (p.1, (triggerStep p.2).1))).map Prod.fst = l.map Prod.fst := by
  induction l with
  | nil => rfl
  | cons p rest ih => simp [ih]

/-- Looking a key up after the per-context update of one trigger call. -/
theorem trigger_map_lookup (l : List (String × BidContext)) (k : String) :
    lookupField (l.map (fun p => (p.1, (triggerStep p.2).1))) k =
      (lookupField l k).map (fun b => (triggerStep b).1) := by
  induction l with
  | nil => rfl
  | cons p rest ih =>
      obtain ⟨k0, v⟩ := p
      by_cases hk : k0 = k
      · subst hk
        rw [List.map_cons, lookupField_cons_self, lookupField_cons_self]
        rfl
      · rw [List.map_cons, lookupField_cons_ne _ _ _ _ hk, lookupField_cons_ne _ _ _ _ hk, ih]

/-- No beacon entry for a key that no bid context carries. -/
theorem fired_countP_zero (l : List (String × BidContext)) (k : String)
    (hk : k ∉ l.map Prod.fst) :
    (l.filterMap (fun p =>
      if (triggerStep p.2).2 then some (p.1, jsGet p.2.ortbBidResponse "lurl") else none)).countP
      (fun p => p.1 == k) = 0 := by
  induction l with
  | nil => rfl
  | cons p rest ih =>
      obtain ⟨k0, b⟩ := p
      have hk0 : k0 ≠ k := fun h => hk (by simp [h])
      have hkrest : k ∉ rest.map Prod.fst := fun h => hk (by simp [h])
      cases hstep : (triggerStep b).2 with
      | true => simp [List.filterMap_cons, hstep, List.countP_cons, ih hkrest, hk0]
      | false => simp [List.filterMap_cons, hstep, ih hkrest]

/-- The count of beacon GETs issued for key `k` by one pass over the
context list, when `k` maps to `bc` and keys are unique. -/
theorem fired_countP_of_lookup (l : List (String × BidContext)) (k : String) (bc : BidContext)
    (hnd : (l.map Prod.fst).Nodup) (hbc : lookupField l k = some bc) :
    (l.filterMap (fun p =>
      if (triggerStep p.2).2 then some (p.1, jsGet p.2.ortbBidResponse "lurl") else none)).countP
      (fun p => p.1 == k) = (if (triggerStep bc).2 then 1 else 0) := by
  induction l with
  | nil => cases hbc
  | cons p rest ih =>
      obtain ⟨k0, b⟩ := p
      have hnd' : (rest.map Prod.fst).Nodup := (List.nodup_cons.mp hnd).2
      by_cases hk : k0 = k
      · subst hk
        rw [lookupField_cons_self] at hbc
        injection hbc with hbceq
        subst hbceq
        have hkrest : k0 ∉ rest.map Prod.fst := (List.nodup_cons.mp hnd).1
        cases hstep : (triggerStep b).2 with
        | true =>
            simp [List.filterMap_cons, hstep, List.countP_cons,
              fired_countP_zero rest k0 hkrest]
        | false =>
            simp [List.filterMap_cons, hstep, fired_countP_zero rest k0 hkrest]
      · rw [lookupField_cons_ne _ _ _ _ hk] at hbc
        cases hstep : (triggerStep b).2 with
        | true =>
            rw [List.filterMap_cons]
            simp only [hstep, if_pos rfl, List.countP_cons]
            have hne : (((k0, jsGet b.ortbBidResponse "lurl")).1 == k) = false := by
              simpa using hk
            simp [hne, ih hnd' hbc]
        | false =>
            rw [List.filterMap_cons]
            simp only [hstep]
            simp only [if_neg (by simp : ¬ false = true)]
            exact ih hnd' hbc

/-- One `triggerAllLossBidLossBeacon` call, seen from the bid context at
key `k`: the context becomes `triggerStep` of itself, the key list is
unchanged, and the number of GETs issued for `k` is one exactly when the
step fires. -/
theorem trigger_call_shape (lc : LocalContext) (k : String) (bc : BidContext)
    (hnd : (lc.bidContexts.map Prod.fst).Nodup)
    (hbc : lookupField lc.bidContexts k = some bc) :
    lookupField (lc.triggerAllLossBidLossBeacon).1.bidContexts k = some (triggerStep bc).1 ∧
    ((lc.triggerAllLossBidLossBeacon).1.bidContexts.map Prod.fst).Nodup ∧
    (lc.triggerAllLossBidLossBeacon).2.countP (fun p => p.1 == k) =
      (if (triggerStep bc).2 then 1 else 0) := by
  refine ⟨?_, ?_, ?_⟩
  · show lookupField (lc.bidContexts.map (fun p => (p.1, (triggerStep p.2).1))) k = _
    rw [trigger_map_lookup, hbc]
    rfl
  · show ((lc.bidContexts.map (fun p => (p.1, (triggerStep p.2).1))).map Prod.fst).Nodup
    rw [trigger_map_fst]
    exact hnd
  · exact fired_countP_of_lookup lc.bidContexts k bc hnd hbc

/-- `triggerCalls` unfolded one call at a time. -/
theorem triggerCalls_succ (lc : LocalContext) (n : Nat) :
    triggerCalls lc (n + 1) =
      ((triggerCalls (lc.triggerAllLossBidLossBeacon).1 n).1,
       (lc.triggerAllLossBidLossBeacon).2 ++ (triggerCalls (lc.triggerAllLossBidLossBeacon).1 n).2) :=
  rfl

/-- A context whose beacon already fired never fires again across any
number of further `triggerAllLossBidLossBeacon` calls. -/
theorem triggerCalls_count_zero (n : Nat) (lc : LocalContext) (k : String) (bc : BidContext)
    (hnd : (lc.bidContexts.map Prod.fst).Nodup)
    (hbc : lookupField lc.bidContexts k = some bc)
    (htrig : bc.lurlTriggered = true) :
    (triggerCalls lc n).2.countP (fun p => p.1 == k) = 0 := by
  induction n generalizing lc bc with
  | zero => rfl
  | succ m ih =>
      have hcond : ¬ ((truthy (jsGet bc.ortbBidResponse "lurl") && !bc.bidWin &&
          !bc.lurlTriggered) = true) := by
        simp [htrig]
      have hstep : triggerStep bc = (bc, false) := by
        unfold triggerStep
        rw [if_neg hcond]
      obtain ⟨hlk, hnd', hcnt⟩ := trigger_call_shape lc k bc hnd hbc
      rw [triggerCalls_succ, List.countP_append]
      rw [hcnt, hstep]
      simp only [if_neg (by simp : ¬ false = true), Nat.zero_add]
      exact ih (lc.triggerAllLossBidLossBeacon).1 (triggerStep bc).1
        hnd' hlk (by rw [hstep]; exact htrig)

/-- C4: for a bid context whose wire bid carries a loss-notification URL
and whose `bidWin` is false, any number of consecutive
`triggerAllLossBidLossBeacon` calls issues the loss-beacon GET for that
context at most once; when the `lurlTriggered` flag starts false and at
least one call is made (in particular two consecutive calls with no
intervening win), exactly one GET is issued — the flag is set at the first
firing and never unset. -/
theorem C4_loss_beacon_at_most_once (lc : LocalContext) (k : String) (bc : BidContext) (n : Nat)
    (hnd : (lc.bidContexts.map Prod.fst).Nodup)
    (hbc : lookupField lc.bidContexts k = some bc)
    (hlurl : truthy (jsGet bc.ortbBidResponse "lurl") = true)
    (hwin : bc.bidWin = false) :
    (triggerCalls lc n).2.countP (fun p => p.1 == k) ≤ 1 ∧
    (bc.lurlTriggered = false → 1 ≤ n →
      (triggerCalls lc n).2.countP (fun p => p.1 == k) = 1) := by
  cases htrig : bc.lurlTriggered with
  | true =>
      rw [triggerCalls_count_zero n lc k bc hnd hbc htrig]
      exact ⟨Nat.zero_le 1, fun hfalse _ => by cases hfalse⟩
  | false =>
      cases n with
      | zero => exact ⟨Nat.zero_le 1, fun _ h => absurd h (by simp)⟩
      | succ m =>
          have hcond : (truthy (jsGet bc.ortbBidResponse "lurl") && !bc.bidWin &&
              !bc.lurlTriggered) = true := by
            simp [hlurl, hwin, htrig]
          have hstep : triggerStep bc = ({ bc with lurlTriggered := true }, true) := by
            unfold triggerStep
            rw [if_pos hcond]
          have hfire : (triggerStep bc).2 = true := by rw [hstep]
          have hset : (triggerStep bc).1.lurlTriggered = true := by rw [hstep]
          obtain ⟨hlk, hnd', hcnt⟩ := trigger_call_shape lc k bc hnd hbc
          have hrest : (triggerCalls (lc.triggerAllLossBidLossBeacon).1 m).2.countP
              (fun p => p.1 == k) = 0 :=
            triggerCalls_count_zero m _ k (triggerStep bc).1 hnd' hlk hset
          rw [triggerCalls_succ, List.countP_append, hcnt, hfire, hrest]
          exact ⟨by simp, fun _ _ => by simp⟩

/-- C4 witness: on the concrete mid-auction coordinator (lurl present, bid
not won, flag unset), five consecutive trigger calls — in particular the
first two — issue exactly one GET for context "o1". -/
theorem C4_witness :
    (fixtureMidAuction.bidContexts.map Prod.fst).Nodup ∧
    lookupField fixtureMidAuction.bidContexts "o1" = some fixtureBidContext ∧
    truthy (jsGet fixtureBidContext.ortbBidResponse "lurl") = true ∧
    (triggerCalls fixtureMidAuction 5).2.countP (fun p => p.1 == "o1") ≤ 1 ∧
    (triggerCalls fixtureMidAuction 5).2.countP (fun p => p.1 == "o1") = 1 := by
  have h := C4_loss_beacon_at_most_once fixtureMidAuction "o1" fixtureBidContext 5
    (by simp [fixtureMidAuction]) rfl rfl rfl
  exact ⟨by simp [fixtureMidAuction], rfl, rfl, h.1, h.2 rfl (by simp)⟩

/-- The effect of `pushEventToAllBidContexts`: the event lands at the end
of the common log, the payload fragment is merged into the common payload,
and every existing bid context gets the event appended to its own log (when
none exists, the map equation holds trivially over the empty list and the
common-flushed flag is cleared). -/
theorem pushEventToAll_shape (lc : LocalContext) (ev : DebugEvent) (payload : JsVal) :
    (lc.pushEventToAllBidContexts ev payload).commonBidContextEvents =
      lc.commonBidContextEvents ++ [ev] ∧
    (lc.pushEventToAllBidContexts ev payload).commonPayload =
      mergeDeep lc.commonPayload payload ∧
    (lc.pushEventToAllBidContexts ev payload).bidContexts.map (fun p => p.2.events) =
      lc.bidContexts.map (fun p => p.2.events ++ [ev]) ∧
    (lc.bidContexts = [] →
      (lc.pushEventToAllBidContexts ev payload).commonFlushed = false) := by
  unfold LocalContext.pushEventToAllBidContexts
  cases hE : lc.bidContexts with
  | nil => simp [LocalContext.mergePayload]
  | cons p rest =>
      simp only [hE]
      refine ⟨by simp [LocalContext.mergePayload], by simp [LocalContext.mergePayload],
        ?_, fun h => by cases h⟩
      simp [LocalContext.mergePayload, BidContext.pushEvent]

/-- C5 counterexample: the claim as stated fails when the failing payload
carries a truthy non-numeric `timestamp`.  On `{timestamp: "abc"}` the
catch block's own `new DebugEvent(...)` throws "Timestamp must be a
number" before anything is routed: the coordinator state is completely
unchanged (no error event reaches any log) and the exception that
propagates to the host is the constructor's, not the original "boom". -/
theorem C5_counterexample :
    (trackOnError fixtureMidAuction "noBid"
      (.vObj [("timestamp", .vStr "abc")]) "boom" 9).1 = fixtureMidAuction ∧
    (trackOnError fixtureMidAuction "noBid"
      (.vObj [("timestamp", .vStr "abc")]) "boom" 9).2 = "Timestamp must be a number" ∧
    ("Timestamp must be a number" = "boom" → False) :=
  ⟨rfl, rfl, by decide⟩

/-- C5 (amended): when the event-specific handler for `eventType` raises an
exception with message `errMsg` AND the synthetic event construction
itself succeeds — the event kind is nonempty and the payload's
`timestamp`, if truthy, is a number — the top-level track handler catches
it, builds an error-severity `DebugEvent` carrying the note, routes it to
the common log and to every existing bid context together with a payload
fragment holding the redacted original event arguments and the error's
message, and then re-throws the original exception.  (Outside that
proviso the constructor's own error replaces the original and nothing is
routed — see the counterexample.) -/
theorem C5_track_error_routing (lc : LocalContext) (eventType : String) (eventArgs : JsVal)
    (errMsg : String) (now : Int)
    (ht : eventType ≠ "")
    (hts : truthy (jsGet eventArgs "timestamp") = true → (jsGet eventArgs "timestamp").isNum = true) :
    ∃ ev : DebugEvent,
      ev.eventType = eventType ∧
      ev.level = "error" ∧
      ev.note = some "Error occurred when processing this event." ∧
      (trackOnError lc eventType eventArgs errMsg now).2 = errMsg ∧
      (trackOnError lc eventType eventArgs errMsg now).1.commonBidContextEvents =
        lc.commonBidContextEvents ++ [ev] ∧
      (trackOnError lc eventType eventArgs errMsg now).1.bidContexts.map (fun p => p.2.events) =
        lc.bidContexts.map (fun p => p.2.events ++ [ev]) ∧
      (trackOnError lc eventType eventArgs errMsg now).1.commonPayload =
        mergeDeep lc.commonPayload
          (.vObj [(eventType ++ "_caughtError",
            .vObj [("eventArgs", redact eventArgs), ("error", .vStr errMsg)])]) := by
  set ts := jsGet eventArgs "timestamp" with hts_def
  have hnotbad : ¬ (truthy ts = true ∧ ¬ ts.isNum = true) := by
    rintro ⟨h1, h2⟩
    exact h2 (hts h1)
  set ev : DebugEvent :=
    { eventType := eventType, level := "error",
      timestamp := if truthy ts then ts.asNum else now,
      note := some "Error occurred when processing this event." } with hev
  have hmake : DebugEvent.make eventType "error" ts
      (some "Error occurred when processing this event.") now = .ok ev := by
    unfold DebugEvent.make
    rw [if_neg ht, if_neg (by simp [DEBUG_EVENT_LEVELS]), if_neg hnotbad]
  have htrack : trackOnError lc eventType eventArgs errMsg now =
      (lc.pushEventToAllBidContexts ev
        (.vObj [(eventType ++ "_caughtError",
          .vObj [("eventArgs", redact eventArgs), ("error", .vStr errMsg)])]), errMsg) := by
    unfold trackOnError trackCatch
    rw [← hts_def, hmake]
  obtain ⟨h1, h2, h3, _⟩ := pushEventToAll_shape lc ev
    (.vObj [(eventType ++ "_caughtError",
      .vObj [("eventArgs", redact eventArgs), ("error", .vStr errMsg)])])
  exact ⟨ev, rfl, rfl, rfl, by rw [htrack], by rw [htrack]; exact h1,
    by rw [htrack]; exact h3, by rw [htrack]; exact h2⟩

/-- C5 witness: the routing theorem applied to the concrete mid-auction
coordinator with a no-bid event whose handler raised "boom". -/
theorem C5_witness :
    ("noBid" ≠ "") ∧
    ∃ ev : DebugEvent,
      ev.eventType = "noBid" ∧
      ev.level = "error" ∧
      ev.note = some "Error occurred when processing this event." ∧
      (trackOnError fixtureMidAuction "noBid" (.vObj [("timestamp", .vNum 5)]) "boom" 9).2 = "boom" ∧
      (trackOnError fixtureMidAuction "noBid" (.vObj [("timestamp", .vNum 5)]) "boom" 9).1.commonBidContextEvents =
        fixtureMidAuction.commonBidContextEvents ++ [ev] ∧
      (trackOnError fixtureMidAuction "noBid" (.vObj [("timestamp", .vNum 5)]) "boom" 9).1.bidContexts.map
          (fun p => p.2.events) =
        fixtureMidAuction.bidContexts.map (fun p => p.2.events ++ [ev]) ∧
      (trackOnError fixtureMidAuction "noBid" (.vObj [("timestamp", .vNum 5)]) "boom" 9).1.commonPayload =
        mergeDeep fixtureMidAuction.commonPayload
          (.vObj [("noBid" ++ "_caughtError",
            .vObj [("eventArgs", redact (.vObj [("timestamp", .vNum 5)])), ("error", .vStr "boom")])]) :=
  ⟨by decide, C5_track_error_routing fixtureMidAuction "noBid" (.vObj [("timestamp", .vNum 5)])
    "boom" 9 (by decide) (fun _ => rfl)⟩

/-- Folding the cached common events into a fresh bid context appends them
all to its log, in order, and touches nothing else. -/
theorem foldl_pushEvent_shape (evs : List DebugEvent) (bc : BidContext) :
    (evs.foldl (fun b ev => b.pushEvent ev none) bc).events = bc.events ++ evs ∧
    (evs.foldl (fun b ev => b.pushEvent ev none) bc).payload = bc.payload ∧
    (evs.foldl (fun b ev => b.pushEvent ev none) bc).bidWin = bc.bidWin ∧
    (evs.foldl (fun b ev => b.pushEvent ev none) bc).lurlTriggered = bc.lurlTriggered := by
  induction evs generalizing bc with
  | nil => simp
  | cons ev rest ih =>
      obtain ⟨h1, h2, h3, h4⟩ := ih (bc.pushEvent ev none)
      refine ⟨?_, ?_, ?_, ?_⟩
      · rw [List.foldl_cons, h1]
        simp [BidContext.pushEvent]
      · rw [List.foldl_cons, h2]
        rfl
      · rw [List.foldl_cons, h3]
        rfl
      · rw [List.foldl_cons, h4]
        rfl

/-- C8: creating a Bid Context from a correlation payload (through
`retrieveBidContext`, on a fresh ortb id) succeeds only for the
raw-wire-bid or interpreted-response kinds.  Any other kind makes the
construction throw the InvalidBidContextSeed error, which propagates to the
caller with the bid-context set unchanged; a successful creation stores the
new context under the resolved key, copies every previously-logged common
event into its log in order, and merges the accumulated common payload into
its (initially empty) payload, with the win and beacon flags starting
false. -/
theorem C8_seed_kind_check (lc : LocalContext) (bid : JsVal) (oid : JsVal) (t : String)
    (hid : resolveOrtbIdForRetrieve bid = .ok oid)
    (hnew : lookupField lc.bidContexts (toKey oid) = none)
    (ht : determineObjType bid = .ok t)
    (hb : truthy bid = true) :
    ((t ≠ OBJECT_TYPES_ORTB_BID ∧ t ≠ OBJECT_TYPES_PREBID_RESPONSE_INTERPRETED) →
      lc.retrieveBidContext bid = (lc, .error (.invalidBidContextSeed (redact bid)))) ∧
    ((t = OBJECT_TYPES_ORTB_BID ∨ t = OBJECT_TYPES_PREBID_RESPONSE_INTERPRETED) →
      ∃ nbc : BidContext,
        lc.retrieveBidContext bid =
          ({ lc with bidContexts := lc.bidContexts ++ [(toKey oid, nbc)] }, .ok nbc) ∧
        nbc.events = lc.commonBidContextEvents ∧
        nbc.payload = mergeDeep (.vObj []) lc.commonPayload ∧
        nbc.bidWin = false ∧
        nbc.lurlTriggered = false) := by
  have hmake : BidContext.make bid =
      (if t = OBJECT_TYPES_ORTB_BID then
        .ok { prebidBidResponse := .vNull, ortbBidResponse := bid,
              bidWin := false, lurlTriggered := false, events := [], payload := .vObj [] }
      else if t = OBJECT_TYPES_PREBID_RESPONSE_INTERPRETED then
        .ok { prebidBidResponse := bid, ortbBidResponse := jsGet bid "ortbBidResponse",
              bidWin := false, lurlTriggered := false, events := [], payload := .vObj [] }
      else .error (.invalidBidContextSeed (redact bid))) := by
    unfold BidContext.make
    rw [if_neg (by simp [hb]), ht]
  constructor
  · rintro ⟨hne1, hne2⟩
    unfold LocalContext.retrieveBidContext
    simp only [hid, hnew, hmake, if_neg hne1, if_neg hne2]
  · intro hkind
    have hstart : ∃ nbc0 : BidContext, BidContext.make bid = .ok nbc0 ∧
        nbc0.events = [] ∧ nbc0.payload = .vObj [] ∧
        nbc0.bidWin = false ∧ nbc0.lurlTriggered = false := by
      cases hkind with
      | inl h => exact ⟨_, by rw [hmake, if_pos h], rfl, rfl, rfl, rfl⟩
      | inr h =>
          by_cases h1 : t = OBJECT_TYPES_ORTB_BID
          · exact ⟨_, by rw [hmake, if_pos h1], rfl, rfl, rfl, rfl⟩
          · exact ⟨_, by rw [hmake, if_neg h1, if_pos h], rfl, rfl, rfl, rfl⟩
    obtain ⟨nbc0, hmk, hev0, hpay0, hwin0, hlurl0⟩ := hstart
    obtain ⟨hfev, hfpay, hfwin, hflurl⟩ := foldl_pushEvent_shape lc.commonBidContextEvents nbc0
    refine ⟨{ lc.commonBidContextEvents.foldl (fun b ev => b.pushEvent ev none) nbc0 with
        payload := mergeDeep
          (lc.commonBidContextEvents.foldl (fun b ev => b.pushEvent ev none) nbc0).payload
          lc.commonPayload }, ?_, ?_, ?_, ?_, ?_⟩
    · unfold LocalContext.retrieveBidContext
      simp only [hid, hnew, hmk]
    · show (lc.commonBidContextEvents.foldl (fun b ev => b.pushEvent ev none) nbc0).events =
        lc.commonBidContextEvents
      rw [hfev, hev0]
      simp
    · show mergeDeep
          (lc.commonBidContextEvents.foldl (fun b ev => b.pushEvent ev none) nbc0).payload
          lc.commonPayload = mergeDeep (.vObj []) lc.commonPayload
      rw [hfpay, hpay0]
    · show (lc.commonBidContextEvents.foldl (fun b ev => b.pushEvent ev none) nbc0).bidWin = false
      rw [hfwin, hwin0]
    · show (lc.commonBidContextEvents.foldl
          (fun b ev => b.pushEvent ev none) nbc0).lurlTriggered = false
      rw [hflurl, hlurl0]

/-- C8 witness: the seeding theorem applied to the concrete zero-context
coordinator and the auction-shaped payload — the construction fails with
the InvalidBidContextSeed error and the state is unchanged. -/
theorem C8_witness :
    determineObjType c6Bid = .ok OBJECT_TYPES_AUCTION ∧
    c3State.retrieveBidContext c6Bid =
      (c3State, .error (.invalidBidContextSeed (redact c6Bid))) :=
  ⟨rfl, (C8_seed_kind_check c3State c6Bid (.vStr "X") OBJECT_TYPES_AUCTION rfl rfl rfl rfl).1
    ⟨by decide, by decide⟩⟩

/-- C10 witness: the path theorem applied to a concrete object holding an
array of objects — the `adm` field nested inside the array element is
replaced by the placeholder three levels down, the path crossing the array
through its index key "0". -/
theorem C10_witness :
    (∀ a ∈ ["list", "0"], a ∉ COMMON_FIELDS_TO_OMIT) ∧
    getPath (JsVal.vObj [("list", JsVal.vArr [JsVal.vObj
                           [("adm", JsVal.vStr "big"), ("ok", JsVal.vNum 3)]]),
                         ("keep", JsVal.vStr "k")]) (["list", "0"] ++ ["adm"]) =
      some (JsVal.vStr "big") ∧
    getPath (omitRecursive
        (JsVal.vObj [("list", JsVal.vArr [JsVal.vObj
                       [("adm", JsVal.vStr "big"), ("ok", JsVal.vNum 3)]]),
                     ("keep", JsVal.vStr "k")]) COMMON_FIELDS_TO_OMIT OMITTED)
        (["list", "0"] ++ ["adm"]) = some OMITTED := by
  refine ⟨by decide, rfl, ?_⟩
  have h := (C10_omitRecursive_spec
    (JsVal.vObj [("list", JsVal.vArr [JsVal.vObj
                   [("adm", JsVal.vStr "big"), ("ok", JsVal.vNum 3)]]),
                 ("keep", JsVal.vStr "k")]) OMITTED COMMON_FIELDS_TO_OMIT
    ["list", "0"] "adm" (JsVal.vStr "big") (by decide) rfl).1
  exact h.trans rfl

end Mobkoi
